import Mathlib

/-
Verification development for the `hot` process supervisor.

The program (src/main.rs) runs a user command as a child process, relays its
stdout/stderr to the terminal through a mio poll loop, restarts the child when
the operator presses 'r'/'R', and quits with exit code 2 on Ctrl-C / Ctrl-D.

The embedding below models the I/O environment (terminal, OS process table,
mio registry, pipes) by explicit oracles: each fallible OS call is represented
by an `Except IOError _` value supplied from outside, and the state the program
can observe (raw-mode flag, registered descriptors, live children) is threaded
explicitly.  The supervision loop is embedded as a step function over a loop
state that also emits a trace of the externally visible actions it performs,
in program order.
-/

namespace Hot

/-- Model of `std::io::Error`, identified by its `ErrorKind` (the only part of
the error the program ever inspects, at main.rs line 195). -/
inductive IOError where
  | interrupted
  | notFound
  | other (n : Nat)
  deriving DecidableEq, Repr

/-! ### Crossterm events

`read_reload_event` matches on `Event::Key(KeyEvent { code, modifiers, kind, .. })`.
The `..` ignores the remaining `KeyEvent` field (`state`), so it is omitted from
the model.  `KeyModifiers` is a bitflags value and a constant pattern such as
`KeyModifiers::CONTROL` matches by equality with exactly that bit set, so the
modifiers are modelled as a structure of flag booleans (`superKey` stands for
all remaining crossterm modifier bits). -/

inductive KeyCode where
  | char (c : Char)
  | otherKey
  deriving DecidableEq, Repr

structure KeyModifiers where
  shift : Bool
  control : Bool
  alt : Bool
  superKey : Bool
  deriving DecidableEq, Repr

/-- `KeyModifiers::NONE`: no modifier bit set. -/
def KeyModifiers.noneMod : KeyModifiers := ⟨false, false, false, false⟩

/-- `KeyModifiers::SHIFT`: exactly the shift bit set. -/
def KeyModifiers.shiftOnly : KeyModifiers := ⟨true, false, false, false⟩

/-- `KeyModifiers::CONTROL`: exactly the control bit set. -/
def KeyModifiers.controlOnly : KeyModifiers := ⟨false, true, false, false⟩

inductive KeyEventKind where
  | press
  | release
  | repeatKind
  deriving DecidableEq, Repr

structure KeyEvent where
  code : KeyCode
  modifiers : KeyModifiers
  kind : KeyEventKind
  deriving DecidableEq, Repr

/-- `crossterm::event::Event`: key events and everything else (mouse, resize,
focus, paste), which the program treats uniformly via its `_` match arm. -/
inductive CtEvent where
  | key (k : KeyEvent)
  | otherEvent
  deriving DecidableEq, Repr

/-- First match arm of `read_reload_event` (main.rs lines 78-83):
`Event::Key(KeyEvent { code: KeyCode::Char('c' | 'd'),
modifiers: KeyModifiers::CONTROL, kind: KeyEventKind::Press, .. })`. -/
def isQuitEvent : CtEvent → Bool
  | .key k =>
      decide ((k.code = KeyCode.char 'c' ∨ k.code = KeyCode.char 'd') ∧
        k.modifiers = KeyModifiers.controlOnly ∧ k.kind = KeyEventKind.press)
  | .otherEvent => false

/-- Second match arm of `read_reload_event` (main.rs lines 89-94):
`Event::Key(KeyEvent { code: KeyCode::Char('r' | 'R'),
modifiers: KeyModifiers::NONE | KeyModifiers::SHIFT,
kind: KeyEventKind::Press, .. })`. -/
def isReloadEvent : CtEvent → Bool
  | .key k =>
      decide ((k.code = KeyCode.char 'r' ∨ k.code = KeyCode.char 'R') ∧
        (k.modifiers = KeyModifiers.noneMod ∨ k.modifiers = KeyModifiers.shiftOnly) ∧
        k.kind = KeyEventKind.press)
  | .otherEvent => false

/-- Outcome of a computation that may return normally, return an I/O error, or
terminate the whole process via `std::process::exit` (which never returns). -/
inductive RRes (T : Type) where
  | exited (code : Int)
  | ok (v : T)
  | err (e : IOError)
  deriving DecidableEq, Repr

/-- Oracle for one invocation of the terminal primitives used by
`read_reload_event`: whether `is_raw_mode_enabled` fails, and the results of
`enable_raw_mode`, the zero-timeout `poll`, `read`, and the (up to two)
`disable_raw_mode` calls (the one in the quit arm and the one in
`wrap_raw_mode`'s epilogue). -/
structure TermOracle where
  isRawFails : Option IOError
  enableRes : Except IOError Unit
  pollRes : Except IOError Bool
  readRes : Except IOError CtEvent
  disableQuitRes : Except IOError Unit
  disableEpiRes : Except IOError Unit

/-- `wrap_raw_mode` (main.rs lines 46-72).  `rawInit` is the terminal's raw-mode
state when the call starts; the returned `Bool` is the raw-mode state when the
call finishes (or when the process exits from inside the body).  The body
`func` receives `should_disable` and the current raw-mode state, and returns
its outcome together with the raw-mode state it leaves behind.  Faithful
points: if raw mode was already enabled nothing is enabled or disabled; the
epilogue `disable_raw_mode` runs before `res.and_then`, so a body error takes
priority over a disable error in the returned result, while a disable error
after a successful body replaces the successful result; a `process::exit`
inside the body bypasses the epilogue entirely.  The panic-hook installation
is not modelled (no panics occur in the model). -/
def wrap_raw_mode {T : Type} (rawInit : Bool) (isRawFails : Option IOError)
    (enableRes : Except IOError Unit) (disableEpiRes : Except IOError Unit)
    (func : Bool → Bool → RRes T × Bool) : RRes T × Bool :=
  match isRawFails with
  | some e => (.err e, rawInit)
  | none =>
    if rawInit then
      -- should_disable = false; disable_res = Ok(()); res.and_then(..) = res
      func false rawInit
    else
      match enableRes with
      | .error e => (.err e, rawInit)
      | .ok _ =>
        match func true true with
        | (.exited n, raw1) => (.exited n, raw1)
        | (.err e, raw1) =>
          (.err e, match disableEpiRes with | .ok _ => false | .error _ => raw1)
        | (.ok v, raw1) =>
          match disableEpiRes with
          | .ok _ => (.ok v, false)
          | .error e2 => (.err e2, raw1)

/-- The closure passed to `wrap_raw_mode` by `read_reload_event`
(main.rs lines 75-100): zero-timeout poll, one `read`, and the three match
arms (quit, reload, anything else). -/
def read_reload_body (o : TermOracle) (should_disable : Bool) (raw : Bool) :
    RRes Bool × Bool :=
  match o.pollRes with
  | .error e => (.err e, raw)
  | .ok false => (.ok false, raw)
  | .ok true =>
    match o.readRes with
    | .error e => (.err e, raw)
    | .ok ev =>
      if isQuitEvent ev then
        if should_disable then
          match o.disableQuitRes with
          | .ok _ => (.exited 2, false)
          | .error e => (.err e, raw)
        else (.exited 2, raw)
      else if isReloadEvent ev then (.ok true, raw)
      else (.ok false, raw)

/-- `read_reload_event` (main.rs lines 74-101): `Ok true` means Reload,
`Ok false` means Idle, `exited 2` is the quit path. -/
def read_reload_event (raw : Bool) (o : TermOracle) : RRes Bool × Bool :=
  wrap_raw_mode raw o.isRawFails o.enableRes o.disableEpiRes (read_reload_body o)

/-! ### Transfer buffer (`Pipe`, main.rs lines 103-114)

The source stream is modelled as the list of results its successive `read`
calls will return (each `.ok bytes` fills the front of the buffer with `bytes`
and returns their count).  The destination is modelled by the list of results
of its successive `write_all` calls together with a log of the payloads of the
successful calls.  `write_all` on an empty slice performs no underlying write
and cannot fail (it is a no-op), matching `std::io::Write::write_all`. -/

structure Reader where
  pending : List (Except IOError (List Nat))
  deriving Repr

structure Writer where
  results : List (Except IOError Unit)
  log : List (List Nat)
  deriving Repr

/-- One `reader.read(..)` call: consume the next pending result. -/
def readCall (r : Reader) : Except IOError (List Nat) × Reader :=
  (r.pending.headD (.ok []), ⟨r.pending.tail⟩)

/-- One `writer.write_all(bytes)` call.  An empty slice is accepted without
touching the destination; otherwise the next oracle result decides whether the
whole payload is accepted (logged) or an error is returned. -/
def writeAllCall (w : Writer) (bytes : List Nat) : Except IOError Unit × Writer :=
  if bytes.isEmpty then (.ok (), w)
  else
    match w.results.headD (.ok ()) with
    | .ok _ => (.ok (), ⟨w.results.tail, w.log ++ [bytes]⟩)
    | .error e => (.error e, ⟨w.results.tail, w.log⟩)

structure TransferOut where
  res : Except IOError Unit
  buf : List Nat
  reader : Reader
  writer : Writer
  deriving Repr

namespace Pipe

/-- `Pipe::with_capacity` (main.rs lines 106-108): a zeroed buffer. -/
def withCapacity (capacity : Nat) : List Nat := List.replicate capacity 0

/-- `Pipe::transfer` (main.rs lines 110-113):
`let read = reader.read(&mut self.0)?; writer.write_all(&self.0[..read])`.
A successful read of `bytes` overwrites the front of the buffer;
the slice `self.0[..read]` is then handed to `write_all`. -/
def transfer (buf : List Nat) (r : Reader) (w : Writer) : TransferOut :=
  match readCall r with
  | (.error e, r1) => ⟨.error e, buf, r1, w⟩
  | (.ok bytes, r1) =>
    let buf1 := bytes ++ buf.drop bytes.length
    let wc := writeAllCall w (buf1.take bytes.length)
    ⟨wc.1, buf1, r1, wc.2⟩

end Pipe

/-! ### Child process spawning (`Process::spawn`, main.rs lines 122-137) -/

/-- `std::process::Stdio` configuration choices. -/
inductive StdioCfg where
  | inheritCfg
  | piped
  | nullCfg
  deriving DecidableEq, Repr

/-- The `Command` built by `Process::spawn` before `.spawn()` is called. -/
structure CommandCfg where
  program : String
  argv : List String
  stdinCfg : StdioCfg
  stdoutCfg : StdioCfg
  stderrCfg : StdioCfg
  deriving DecidableEq, Repr

/-- The announcement line `format!("{0} {1}", cmd, args.join(" "))` printed to
stderr by `Process::spawn` (the bold styling is presentation only and is not
modelled). -/
def spawnAnnounceLine (cmd : String) (args : List String) : String :=
  cmd ++ " " ++ String.intercalate " " args

/-- `Command::new(cmd).args(args).stdin(piped).stdout(piped).stderr(piped)`. -/
def buildCommand (cmd : String) (args : List String) : CommandCfg :=
  ⟨cmd, args, .piped, .piped, .piped⟩

namespace Process

/-- `Process::spawn` (main.rs lines 122-137): first `eprintln!` the
announcement, then ask the operating system (`osSpawn`) to spawn the command
configured with three piped standard streams; the OS result (a pid on
success) is propagated unchanged.  The returned list holds the stderr lines
emitted, in order, before the function returns. -/
def spawn (cmd : String) (args : List String)
    (osSpawn : CommandCfg → Except IOError Nat) :
    List String × Except IOError Nat :=
  ([spawnAnnounceLine cmd args], osSpawn (buildCommand cmd args))

end Process

/-! ### The supervision loop (`main`, main.rs lines 173-219)

One loop iteration is embedded as `loopStep`, driven by an `IterOracle` of OS
call results, over a `LoopState` recording the observable environment: the
generation number of the current child (each spawn creates a fresh one), the
descriptor registrations held by the mio registry (as (child, channel) pairs),
the set of live (spawned and not yet reaped) children, and the terminal
raw-mode flag.  `loopStep` also emits the trace of actions it performs, in
program order, so that invariants can be checked at every intermediate
instant of an iteration. -/

/-- The two logical channels `Process::STDOUT` (Token 0) and `Process::STDERR`
(Token 1). -/
inductive Chan where
  | out
  | err
  deriving DecidableEq, Repr

/-- A mio readiness event: its token and whether it is readable. -/
structure MioEvent where
  token : Nat
  readable : Bool
  deriving DecidableEq, Repr

/-- Externally visible actions of one loop iteration, in program order.
Register/deregister/spawn/wait actions are recorded when the corresponding OS
call succeeds (a failed call changes nothing and aborts the iteration). -/
inductive Action where
  | reloadAnnounce
  | deregOut (c : Nat)
  | deregErr (c : Nat)
  | killed (c : Nat)
  | waited (c : Nat)
  | spawnAnnounce (cmd : String) (args : List String)
  | spawned (c : Nat)
  | registerOut (c : Nat)
  | registerErr (c : Nat)
  | polled
  | transferOut (c : Nat)
  | transferErr (c : Nat)
  | triedWait (c : Nat)
  deriving DecidableEq, Repr

structure LoopState where
  child : Nat
  registered : List (Nat × Chan)
  live : List Nat
  raw : Bool
  deriving DecidableEq, Repr

/-- Oracle for the OS calls of one loop iteration.  `waitRes` carries the exit
status (`ExitStatus::code()`) of the child reaped by `process.wait()` in the
reload arm; `tryWaitRes` is `process.try_wait()`: `none` while the child still
runs, `some st` with `st : Option Int` its exit code once it exited.
`transferRes` abstracts the outcomes of the successive `pipe.transfer` calls
of this iteration (the byte-level behaviour of a single transfer is the
separate `Pipe.transfer` model above). -/
structure IterOracle where
  term : TermOracle
  deregOutRes : Except IOError Unit
  deregErrRes : Except IOError Unit
  killRes : Except IOError Unit
  waitRes : Except IOError (Option Int)
  spawnRes : Except IOError Unit
  regOutRes : Except IOError Unit
  regErrRes : Except IOError Unit
  pollRes : Except IOError (List MioEvent)
  transferRes : List (Except IOError Unit)
  tryWaitRes : Except IOError (Option (Option Int))

/-- Remove one fd registration (all copies of the pair, which is unique in
every reachable registry). -/
def removeReg : List (Nat × Chan) → Nat → Chan → List (Nat × Chan)
  | [], _, _ => []
  | p :: rest, c, ch =>
    if p = (c, ch) then removeReg rest c ch
    else p :: removeReg rest c ch

namespace Process

/-- `Process::register` (main.rs lines 139-151): register the child's stdout
fd under Token 0, then its stderr fd under Token 1; either call may fail, in
which case the remaining one is not attempted. -/
def register (c : Nat) (regs : List (Nat × Chan)) (rOut rErr : Except IOError Unit) :
    Except IOError Unit × List (Nat × Chan) × List Action :=
  match rOut with
  | .error e => (.error e, regs, [])
  | .ok _ =>
    let regs1 := regs ++ [(c, Chan.out)]
    match rErr with
    | .error e => (.error e, regs1, [.registerOut c])
    | .ok _ => (.ok (), regs1 ++ [(c, Chan.err)], [.registerOut c, .registerErr c])

/-- `Process::deregister` (main.rs lines 153-157): deregister the stdout fd,
then the stderr fd. -/
def deregister (c : Nat) (regs : List (Nat × Chan)) (dOut dErr : Except IOError Unit) :
    Except IOError Unit × List (Nat × Chan) × List Action :=
  match dOut with
  | .error e => (.error e, regs, [])
  | .ok _ =>
    let regs1 := removeReg regs c Chan.out
    match dErr with
    | .error e => (.error e, regs1, [.deregOut c])
    | .ok _ => (.ok (), removeReg regs1 c Chan.err, [.deregOut c, .deregErr c])

end Process

/-- The reload arm of the loop (main.rs lines 185-192), entered when
`read_reload_event` returned `Ok(true)`: announce "[RELOAD]", deregister the
current child, kill it, wait on it (status discarded), spawn a new child from
the same command specification, register it.  Any failing call aborts the
iteration with that error (`?` in `main`). -/
def reloadSeq (cmd : String) (args : List String) (s : LoopState) (o : IterOracle) :
    Except IOError LoopState × List Action :=
  let tr0 : List Action := [.reloadAnnounce]
  match Process.deregister s.child s.registered o.deregOutRes o.deregErrRes with
  | (.error e, _, trD) => (.error e, tr0 ++ trD)
  | (.ok _, regs1, trD) =>
    match o.killRes with
    | .error e => (.error e, tr0 ++ trD)
    | .ok _ =>
      match o.waitRes with
      | .error e => (.error e, tr0 ++ trD ++ [.killed s.child])
      | .ok _ =>
        match o.spawnRes with
        | .error e =>
          (.error e, tr0 ++ trD ++
            [.killed s.child, .waited s.child, .spawnAnnounce cmd args])
        | .ok _ =>
          match Process.register (s.child + 1) regs1 o.regOutRes o.regErrRes with
          | (.error e, _, trR) =>
            (.error e, tr0 ++ trD ++
              [.killed s.child, .waited s.child, .spawnAnnounce cmd args,
               .spawned (s.child + 1)] ++ trR)
          | (.ok _, regs2, trR) =>
            (.ok { child := s.child + 1, registered := regs2,
                   live := (s.live.erase s.child) ++ [s.child + 1], raw := s.raw },
             tr0 ++ trD ++
               [.killed s.child, .waited s.child, .spawnAnnounce cmd args,
                .spawned (s.child + 1)] ++ trR)

/-- The event-processing loop (main.rs lines 199-213): for each readiness
event, a readable Token 1 triggers one stderr transfer and a readable Token 0
one stdout transfer; other tokens are ignored.  A failing transfer aborts the
iteration (`?`). -/
def handleEvents (c : Nat) (evts : List MioEvent) (ts : List (Except IOError Unit)) :
    Except IOError Unit × List Action :=
  match evts with
  | [] => (.ok (), [])
  | e :: rest =>
    if e.token == 1 && e.readable then
      match ts.headD (.ok ()) with
      | .error er => (.error er, [])
      | .ok _ =>
        let hr := handleEvents c rest ts.tail
        (hr.1, .transferErr c :: hr.2)
    else if e.token == 0 && e.readable then
      match ts.headD (.ok ()) with
      | .error er => (.error er, [])
      | .ok _ =>
        let hr := handleEvents c rest ts.tail
        (hr.1, .transferOut c :: hr.2)
    else handleEvents c rest ts

/-- The poll step (main.rs lines 194-198): a poll error of kind `Interrupted`
is swallowed and the iteration proceeds with an empty event set (mio clears
the event buffer before waiting, and `events.clear()` ran at the end of the
previous iteration); any other poll error propagates out of the loop. -/
def pollStage (res : Except IOError (List MioEvent)) : Except IOError (List MioEvent) :=
  match res with
  | .ok evts => .ok evts
  | .error e => if e = .interrupted then .ok [] else .error e

/-- Result of one loop iteration: continue to the next iteration, terminate
the whole process with an exit code, or abort with an I/O error (`main`
returning `Err`). -/
inductive StepRes where
  | next (s : LoopState) (tr : List Action)
  | exited (code : Int) (tr : List Action)
  | failed (e : IOError) (tr : List Action)
  deriving DecidableEq, Repr

/-- The tail of an iteration after the poll: process the readiness events,
then `try_wait` (main.rs lines 216-218) — if the child has exited on its own,
terminate with its exit code, defaulting to 11 when the OS reports none. -/
def afterPoll (s : LoopState) (evts : List MioEvent) (o : IterOracle)
    (tr : List Action) : StepRes :=
  match handleEvents s.child evts o.transferRes with
  | (.error e, trE) => .failed e (tr ++ trE)
  | (.ok _, trE) =>
    match o.tryWaitRes with
    | .error e => .failed e (tr ++ trE)
    | .ok none => .next s (tr ++ trE ++ [.triedWait s.child])
    | .ok (some mcode) => .exited (mcode.getD 11) (tr ++ trE ++ [.triedWait s.child])

/-- One iteration of the supervision loop (main.rs lines 184-219). -/
def loopStep (cmd : String) (args : List String) (s : LoopState) (o : IterOracle) :
    StepRes :=
  match read_reload_event s.raw o.term with
  | (.exited n, _) => .exited n []
  | (.err e, _) => .failed e []
  | (.ok reload, raw1) =>
    match (if reload then reloadSeq cmd args {s with raw := raw1} o
           else (.ok {s with raw := raw1}, [])) with
    | (.error e, trR) => .failed e trR
    | (.ok s2, trR) =>
      match pollStage o.pollRes with
      | .error e => .failed e (trR ++ [.polled])
      | .ok evts => afterPoll s2 evts o (trR ++ [.polled])

def stepTrace : StepRes → List Action
  | .next _ tr => tr
  | .exited _ tr => tr
  | .failed _ tr => tr

/-- The loop state just after `main`'s startup (lines 182-183): child 0
spawned and both of its channels registered, terminal in normal mode. -/
def initState : LoopState :=
  { child := 0, registered := [(0, Chan.out), (0, Chan.err)], live := [0], raw := false }

/-- States of the supervision loop reachable from the startup state under any
sequence of oracles, for a fixed command specification. -/
inductive Reachable (cmd : String) (args : List String) : LoopState → Prop where
  | init : Reachable cmd args initState
  | more {s s' : LoopState} {o : IterOracle} {tr : List Action} :
      Reachable cmd args s → loopStep cmd args s o = .next s' tr →
      Reachable cmd args s'

/-! ### Instant-by-instant registry and liveness tracking -/

/-- Effect of one action on the mio registry content. -/
def applyRegs (regs : List (Nat × Chan)) : Action → List (Nat × Chan)
  | .registerOut c => regs ++ [(c, Chan.out)]
  | .registerErr c => regs ++ [(c, Chan.err)]
  | .deregOut c => removeReg regs c Chan.out
  | .deregErr c => removeReg regs c Chan.err
  | _ => regs

/-- Effect of one action on the set of live (spawned, not yet reaped)
children. -/
def applyLive (live : List Nat) : Action → List Nat
  | .spawned c => live ++ [c]
  | .waited c => live.erase c
  | _ => live

def applyRegsTrace (regs : List (Nat × Chan)) (tr : List Action) : List (Nat × Chan) :=
  tr.foldl applyRegs regs

def applyLiveTrace (live : List Nat) (tr : List Action) : List Nat :=
  tr.foldl applyLive live

/-- All registrations currently in the registry belong to one single child. -/
def regChildrenOK (regs : List (Nat × Chan)) : Bool :=
  regs.all fun p => regs.all fun q => p.1 == q.1

/-- The single-child property at one instant: every registered descriptor
belongs to the same child, and at most one child process is live. -/
def instantOK (regs : List (Nat × Chan)) (live : List Nat) : Bool :=
  regChildrenOK regs && decide (live.length ≤ 1)

/-- `instantOK` holds after every single action of a trace. -/
def traceOK (regs : List (Nat × Chan)) (live : List Nat) : List Action → Bool
  | [] => true
  | a :: tr =>
    instantOK (applyRegs regs a) (applyLive live a) &&
    traceOK (applyRegs regs a) (applyLive live a) tr

/-- Actions that touch neither the registry nor the live set. -/
def regNeutral : Action → Bool
  | .registerOut _ => false
  | .registerErr _ => false
  | .deregOut _ => false
  | .deregErr _ => false
  | .spawned _ => false
  | .waited _ => false
  | _ => true

/-! ### Concrete oracles used by the witnesses -/

/-- Terminal oracle for an iteration with no pending input. -/
def idleTerm : TermOracle :=
  { isRawFails := none, enableRes := .ok (), pollRes := .ok false,
    readRes := .error .notFound, disableQuitRes := .ok (), disableEpiRes := .ok () }

/-- Terminal oracle delivering a plain 'r' key press. -/
def reloadTerm : TermOracle :=
  { idleTerm with
    pollRes := .ok true
    readRes := .ok (.key ⟨KeyCode.char 'r', KeyModifiers.noneMod, KeyEventKind.press⟩) }

/-- Terminal oracle delivering a Ctrl-C key press. -/
def quitTerm : TermOracle :=
  { idleTerm with
    pollRes := .ok true
    readRes := .ok (.key ⟨KeyCode.char 'c', KeyModifiers.controlOnly, KeyEventKind.press⟩) }

/-- Iteration oracle for a quiet iteration: no input, every OS call succeeds,
no readiness events, child still running. -/
def idleIter : IterOracle :=
  { term := idleTerm, deregOutRes := .ok (), deregErrRes := .ok (), killRes := .ok (),
    waitRes := .ok none, spawnRes := .ok (), regOutRes := .ok (), regErrRes := .ok (),
    pollRes := .ok [], transferRes := [], tryWaitRes := .ok none }

/-- A body for `wrap_raw_mode` that succeeds and leaves raw mode enabled,
used to witness the error-priority theorem. -/
def constOkBody : Bool → Bool → RRes Bool × Bool := fun _ _ => (.ok true, true)

/-! ## Theorems -/

/-- An event matching the reload arm cannot also match the quit arm: the two
patterns require disjoint modifier sets (and disjoint characters). -/
theorem reload_not_quit (ev : CtEvent) (h : isReloadEvent ev = true) :
    isQuitEvent ev = false := by
  cases ev with
  | otherEvent => rfl
  | key k =>
    simp only [isReloadEvent, decide_eq_true_eq] at h
    simp only [isQuitEvent, decide_eq_false_iff_not]
    rintro ⟨hc, _, _⟩
    rcases h with ⟨hc', _, _⟩
    rcases hc' with h2 | h2 <;> rcases hc with h3 | h3 <;> rw [h2] at h3 <;>
      exact absurd (KeyCode.char.inj h3) (by decide)

/-- Claim C7: `Process::spawn` configures the child's standard input, output
and error as three separate pipes (never inherited), propagates the operating
system's spawn result unchanged (so it fails exactly when the OS cannot locate
or launch the executable), and emits exactly the one-line command/arguments
announcement on the error stream before returning. -/
theorem spawn_pipes_announce_and_error (cmd : String) (args : List String)
    (osSpawn : CommandCfg → Except IOError Nat) :
    ((buildCommand cmd args).stdinCfg = StdioCfg.piped ∧
     (buildCommand cmd args).stdoutCfg = StdioCfg.piped ∧
     (buildCommand cmd args).stderrCfg = StdioCfg.piped) ∧
    (Process.spawn cmd args osSpawn).1 = [spawnAnnounceLine cmd args] ∧
    (∀ e, (Process.spawn cmd args osSpawn).2 = .error e ↔
       osSpawn (buildCommand cmd args) = .error e) ∧
    (∀ pid, (Process.spawn cmd args osSpawn).2 = .ok pid ↔
       osSpawn (buildCommand cmd args) = .ok pid) :=
  ⟨⟨rfl, rfl, rfl⟩, rfl, fun _ => Iff.rfl, fun _ => Iff.rfl⟩

theorem spawn_pipes_announce_and_error_witness :
    (buildCommand "make" ["run"]).stdinCfg = StdioCfg.piped ∧
    (Process.spawn "make" ["run"] (fun _ => .ok 42)).1 = [spawnAnnounceLine "make" ["run"]] :=
  ⟨(spawn_pipes_announce_and_error "make" ["run"] (fun _ => .ok 42)).1.1,
   (spawn_pipes_announce_and_error "make" ["run"] (fun _ => .ok 42)).2.1⟩

/-- Claim C2: `Pipe::transfer` performs exactly one read call (one pending
read result is consumed, whatever happens), then writes exactly the bytes that
read returned: a failed read propagates its error with the destination
untouched; a zero-byte read is not an error and the write is a no-op; a
non-empty read hands precisely those bytes to `write_all`, which either
accepts them all or fails, and either error is returned without any retry.
The buffer keeps its fixed 4096-byte size. -/
theorem transfer_single_read_exact_write (buf : List Nat) (r : Reader) (w : Writer)
    (hlen : buf.length = 4096) :
    (Pipe.transfer buf r w).reader.pending = r.pending.tail ∧
    (∀ e, r.pending.headD (.ok []) = .error e →
       (Pipe.transfer buf r w).res = .error e ∧
       (Pipe.transfer buf r w).writer = w ∧ (Pipe.transfer buf r w).buf = buf) ∧
    (∀ bytes, r.pending.headD (.ok []) = .ok bytes → bytes.length ≤ 4096 →
       (Pipe.transfer buf r w).buf.length = 4096) ∧
    (r.pending.headD (.ok []) = .ok [] →
       (Pipe.transfer buf r w).res = .ok () ∧ (Pipe.transfer buf r w).writer = w) ∧
    (∀ bytes, r.pending.headD (.ok []) = .ok bytes → bytes ≠ [] →
       w.results.headD (.ok ()) = .ok () →
       (Pipe.transfer buf r w).res = .ok () ∧
       (Pipe.transfer buf r w).writer.log = w.log ++ [bytes]) ∧
    (∀ bytes e, r.pending.headD (.ok []) = .ok bytes → bytes ≠ [] →
       w.results.headD (.ok ()) = .error e →
       (Pipe.transfer buf r w).res = .error e ∧
       (Pipe.transfer buf r w).writer.log = w.log) := by
  have htake : ∀ bytes : List Nat,
      ((bytes ++ buf.drop bytes.length).take bytes.length) = bytes := fun bytes =>
    List.take_left bytes (buf.drop bytes.length)
  obtain ⟨pnd⟩ := r
  obtain ⟨wres, wlog⟩ := w
  cases pnd with
  | nil =>
    refine ⟨rfl, ?_, ?_, ?_, ?_, ?_⟩
    · intro e he; simp at he
    · intro bytes hb hble
      cases bytes with
      | cons a l => simp at hb
      | nil => simp [Pipe.transfer, readCall, writeAllCall, hlen]
    · intro _
      exact ⟨rfl, rfl⟩
    · intro bytes hb hne _
      cases bytes with
      | cons a l => simp at hb
      | nil => exact absurd rfl hne
    · intro bytes e hb hne _
      cases bytes with
      | cons a l => simp at hb
      | nil => exact absurd rfl hne
  | cons first rest =>
    cases first with
    | error e0 =>
      refine ⟨rfl, ?_, ?_, ?_, ?_, ?_⟩
      · intro e he
        simp at he
        subst he
        exact ⟨rfl, rfl, rfl⟩
      · intro bytes hb; simp at hb
      · intro hb; simp at hb
      · intro bytes hb; simp at hb
      · intro bytes e hb; simp at hb
    | ok bytes0 =>
      refine ⟨rfl, ?_, ?_, ?_, ?_, ?_⟩
      · intro e he; simp at he
      · intro bytes hb hble
        have hb' : bytes0 = bytes := by simpa using hb
        subst hb'
        simp [Pipe.transfer, readCall, writeAllCall]
        omega
      · intro hb
        have hb' : bytes0 = [] := by simpa using hb
        subst hb'
        exact ⟨rfl, rfl⟩
      · intro bytes hb hne hw
        have hb' : bytes0 = bytes := by simpa using hb
        subst hb'
        cases wres with
        | nil =>
          simp [Pipe.transfer, readCall, writeAllCall, htake bytes0, hne]
        | cons wr wrest =>
          cases wr with
          | error e1 => simp at hw
          | ok u => simp [Pipe.transfer, readCall, writeAllCall, htake bytes0, hne]
      · intro bytes e hb hne hw
        have hb' : bytes0 = bytes := by simpa using hb
        subst hb'
        cases wres with
        | nil => simp at hw
        | cons wr wrest =>
          cases wr with
          | ok u => simp at hw
          | error e1 =>
            have he' : e1 = e := by simpa using hw
            subst he'
            simp [Pipe.transfer, readCall, writeAllCall, htake bytes0, hne]

theorem transfer_single_read_exact_write_witness :
    (Pipe.withCapacity 4096).length = 4096 ∧
    (Pipe.transfer (Pipe.withCapacity 4096) ⟨[.ok [7, 8]]⟩ ⟨[], []⟩).reader.pending = [] ∧
    (Pipe.transfer (Pipe.withCapacity 4096) ⟨[.ok [7, 8]]⟩ ⟨[], []⟩).res = .ok () ∧
    (Pipe.transfer (Pipe.withCapacity 4096) ⟨[.ok [7, 8]]⟩ ⟨[], []⟩).writer.log = [[7, 8]] := by
  have hlen : (Pipe.withCapacity 4096).length = 4096 := by
    rw [Pipe.withCapacity, List.length_replicate]
  have h := transfer_single_read_exact_write (Pipe.withCapacity 4096)
    ⟨[.ok [7, 8]]⟩ ⟨[], []⟩ hlen
  have hsucc := h.2.2.2.2.1 [7, 8] rfl (by decide) rfl
  exact ⟨hlen, h.1, hsucc.1, hsucc.2⟩

/-- Claim C10: in `wrap_raw_mode`, when the wrapper itself entered raw mode
(it was off and enabling succeeded): if the body succeeds but the epilogue
`disable_raw_mode` fails, the disable error is returned and the body's result
is discarded; if the body returns an error, that error is returned regardless
of the disable outcome (`res.and_then(|ret| { disable_res?; Ok(ret) })`). -/
theorem wrap_raw_mode_error_priority {T : Type} (func : Bool → Bool → RRes T × Bool)
    (v : T) (e : IOError) (raw1 : Bool) :
    (func true true = (.ok v, raw1) →
       wrap_raw_mode false none (.ok ()) (.error e) func = (.err e, raw1)) ∧
    (∀ eb raw2 dres, func true true = (.err eb, raw2) →
       (wrap_raw_mode false none (.ok ()) dres func).1 = .err eb) := by
  constructor
  · intro h
    simp [wrap_raw_mode, h]
  · intro eb raw2 dres h
    cases dres <;> simp [wrap_raw_mode, h]

theorem wrap_raw_mode_error_priority_witness :
    constOkBody true true = (.ok true, true) ∧
    wrap_raw_mode false none (.ok ()) (.error .notFound) constOkBody =
      (.err .notFound, true) :=
  ⟨rfl, (wrap_raw_mode_error_priority constOkBody true .notFound true).1 rfl⟩

/-- Claim C4: when `read_reload_event` is invoked with raw mode off (as it is
on every loop iteration), the terminal primitives succeed, and the pending
event is a Ctrl-'c' / Ctrl-'d' key press, the process terminates with exit
code 2 and raw mode has been switched off again before the exit. -/
theorem quit_key_exits_code_two_raw_restored (o : TermOracle) (ev : CtEvent)
    (hf : o.isRawFails = none) (he : o.enableRes = .ok ())
    (hp : o.pollRes = .ok true) (hr : o.readRes = .ok ev)
    (hq : isQuitEvent ev = true) (hd : o.disableQuitRes = .ok ()) :
    read_reload_event false o = (RRes.exited 2, false) := by
  simp [read_reload_event, wrap_raw_mode, read_reload_body, hf, he, hp, hr, hq, hd]

theorem quit_key_exits_code_two_raw_restored_witness :
    quitTerm.isRawFails = none ∧
    isQuitEvent (.key ⟨KeyCode.char 'c', KeyModifiers.controlOnly, KeyEventKind.press⟩) = true ∧
    read_reload_event false quitTerm = (RRes.exited 2, false) :=
  ⟨rfl, by decide,
   quit_key_exits_code_two_raw_restored quitTerm
     (.key ⟨KeyCode.char 'c', KeyModifiers.controlOnly, KeyEventKind.press⟩)
     rfl rfl rfl rfl (by decide) rfl⟩

/-- Claim C3, counterexample: the claim "any other event yields Idle" fails on
a Ctrl-'c' key press — that event does not match the reload arm, yet the check
does not return Idle (`Ok false`): it terminates the process with exit code 2. -/
theorem input_decoding_quit_event_not_idle :
    isReloadEvent (.key ⟨KeyCode.char 'c', KeyModifiers.controlOnly, KeyEventKind.press⟩)
      = false ∧
    read_reload_event false quitTerm = (RRes.exited 2, false) ∧
    (read_reload_event false quitTerm).1 ≠ RRes.ok false ∧
    (read_reload_event false quitTerm).1 ≠ RRes.ok true := by decide

/-- Claim C3 as amended: with the terminal primitives succeeding and raw mode
initially off: no pending input yields Idle immediately; a key press of 'r' or
'R' with no modifier or only shift yields Reload; any other event that is not
a Ctrl-'c'/'d' key press (the quit arm, which exits instead) yields Idle.
The last clause characterises the reload arm exactly. -/
theorem input_decoding_rules (o : TermOracle)
    (hf : o.isRawFails = none) (he : o.enableRes = .ok ())
    (hde : o.disableEpiRes = .ok ()) :
    (o.pollRes = .ok false → read_reload_event false o = (RRes.ok false, false)) ∧
    (∀ ev, o.pollRes = .ok true → o.readRes = .ok ev → isReloadEvent ev = true →
       read_reload_event false o = (RRes.ok true, false)) ∧
    (∀ ev, o.pollRes = .ok true → o.readRes = .ok ev → isQuitEvent ev = false →
       isReloadEvent ev = false →
       read_reload_event false o = (RRes.ok false, false)) ∧
    (∀ c m, isReloadEvent (.key ⟨KeyCode.char c, m, KeyEventKind.press⟩) = true ↔
       ((c = 'r' ∨ c = 'R') ∧
        (m = KeyModifiers.noneMod ∨ m = KeyModifiers.shiftOnly))) := by
  refine ⟨?_, ?_, ?_, ?_⟩
  · intro hp
    simp [read_reload_event, wrap_raw_mode, read_reload_body, hf, he, hde, hp]
  · intro ev hp hr hrel
    have hq := reload_not_quit ev hrel
    simp [read_reload_event, wrap_raw_mode, read_reload_body, hf, he, hde, hp, hr, hq, hrel]
  · intro ev hp hr hq hrel
    simp [read_reload_event, wrap_raw_mode, read_reload_body, hf, he, hde, hp, hr, hq, hrel]
  · intro c m
    simp [isReloadEvent]

/-! ### Helper lemmas about the supervision loop -/

/-- If `read_reload_event` starts with raw mode off and returns normally, raw
mode is off again when it returns. -/
theorem rre_ok_raw_false (o : TermOracle) (b r : Bool)
    (h : read_reload_event false o = (RRes.ok b, r)) : r = false := by
  unfold read_reload_event wrap_raw_mode read_reload_body at h
  repeat' split at h
  all_goals simp_all

/-- A process exit escaping `wrap_raw_mode` originates in its body. -/
theorem wrap_exited {T : Type} (rawI : Bool) (f : Option IOError)
    (e d : Except IOError Unit) (func : Bool → Bool → RRes T × Bool) (n : Int) (r : Bool)
    (h : wrap_raw_mode rawI f e d func = (.exited n, r)) :
    ∃ sd rw r1, func sd rw = (RRes.exited n, r1) := by
  unfold wrap_raw_mode at h
  cases f with
  | some e0 => simp at h
  | none =>
    cases rawI with
    | true =>
      simp at h
      exact ⟨false, true, r, h⟩
    | false =>
      cases e with
      | error e0 => simp at h
      | ok u =>
        simp at h
        rcases hfr : func true true with ⟨res, raw1⟩
        rw [hfr] at h
        cases res with
        | exited m =>
          simp at h
          exact ⟨true, true, raw1, by rw [hfr, h.1]⟩
        | ok v =>
          cases d with
          | ok u2 => simp at h
          | error e2 => simp at h
        | err e1 => simp at h

/-- The body of `read_reload_event` only ever exits with code 2. -/
theorem body_exited (o : TermOracle) (sd raw : Bool) (n : Int) (r : Bool)
    (h : read_reload_body o sd raw = (RRes.exited n, r)) : n = 2 := by
  unfold read_reload_body at h
  repeat' split at h
  all_goals simp_all

/-- `read_reload_event` only ever exits the process with code 2. -/
theorem rre_exited_two (raw : Bool) (o : TermOracle) (n : Int) (r : Bool)
    (h : read_reload_event raw o = (RRes.exited n, r)) : n = 2 := by
  obtain ⟨sd, rw0, r1, hb⟩ := wrap_exited raw o.isRawFails o.enableRes o.disableEpiRes
    (read_reload_body o) n r h
  exact body_exited o sd rw0 n r1 hb

theorem applyRegs_neutral (a : Action) (regs : List (Nat × Chan))
    (h : regNeutral a = true) : applyRegs regs a = regs := by
  cases a <;> simp_all [regNeutral, applyRegs]

theorem applyLive_neutral (a : Action) (live : List Nat)
    (h : regNeutral a = true) : applyLive live a = live := by
  cases a <;> simp_all [regNeutral, applyLive]

theorem traceOK_neutral (tr : List Action) (h : ∀ a ∈ tr, regNeutral a = true)
    (regs : List (Nat × Chan)) (live : List Nat)
    (hio : instantOK regs live = true) :
    traceOK regs live tr = true ∧ applyRegsTrace regs tr = regs ∧
      applyLiveTrace live tr = live := by
  induction tr with
  | nil => simp [traceOK, applyRegsTrace, applyLiveTrace]
  | cons a t ih =>
    have ha : regNeutral a = true := h a (by simp)
    have ht : ∀ b ∈ t, regNeutral b = true := fun b hb => h b (by simp [hb])
    have ih' := ih ht
    rw [traceOK, applyRegs_neutral a regs ha, applyLive_neutral a live ha]
    refine ⟨by rw [hio, ih'.1]; rfl, ?_, ?_⟩
    · rw [applyRegsTrace, List.foldl_cons, applyRegs_neutral a regs ha]
      exact ih'.2.1
    · rw [applyLiveTrace, List.foldl_cons, applyLive_neutral a live ha]
      exact ih'.2.2

theorem traceOK_append (t1 t2 : List Action) (regs : List (Nat × Chan)) (live : List Nat) :
    traceOK regs live (t1 ++ t2) =
      (traceOK regs live t1 &&
       traceOK (applyRegsTrace regs t1) (applyLiveTrace live t1) t2) := by
  induction t1 generalizing regs live with
  | nil => simp [traceOK, applyRegsTrace, applyLiveTrace]
  | cons a t ih =>
    simp [traceOK, applyRegsTrace, applyLiveTrace, ih, Bool.and_assoc]

/-- Every action emitted while processing readiness events is a transfer
action, which touches neither the registry nor the live set. -/
theorem handleEvents_neutral (c : Nat) (evts : List MioEvent) :
    ∀ ts, ∀ a ∈ (handleEvents c evts ts).2, regNeutral a = true := by
  induction evts with
  | nil => intro ts a ha; simp [handleEvents] at ha
  | cons e rest ih =>
    intro ts a ha
    rw [handleEvents] at ha
    by_cases h1 : (e.token == 1 && e.readable) = true
    · rw [if_pos h1] at ha
      rcases hts : ts.headD (.ok ()) with er | u <;> rw [hts] at ha
      · simp at ha
      · simp only [List.mem_cons] at ha
        rcases ha with rfl | ha
        · rfl
        · exact ih ts.tail a ha
    · rw [if_neg h1] at ha
      by_cases h0 : (e.token == 0 && e.readable) = true
      · rw [if_pos h0] at ha
        rcases hts : ts.headD (.ok ()) with er | u <;> rw [hts] at ha
        · simp at ha
        · simp only [List.mem_cons] at ha
          rcases ha with rfl | ha
          · rfl
          · exact ih ts.tail a ha
      · rw [if_neg h0] at ha
        exact ih ts a ha

theorem removeReg_out_pair (c : Nat) :
    removeReg [(c, Chan.out), (c, Chan.err)] c Chan.out = [(c, Chan.err)] := by
  simp [removeReg]

theorem removeReg_err_single (c : Nat) :
    removeReg [(c, Chan.err)] c Chan.err = [] := by
  simp [removeReg]

/-- Full characterisation of the reload arm from a well-formed state: its
whole trace keeps the single-child property at every instant, and on success
the new state holds exactly the fresh child, registered on both channels. -/
theorem reloadSeq_spec (cmd : String) (args : List String) (s : LoopState) (o : IterOracle)
    (hregs : s.registered = [(s.child, Chan.out), (s.child, Chan.err)])
    (hlive : s.live = [s.child]) :
    traceOK s.registered s.live (reloadSeq cmd args s o).2 = true ∧
    (∀ s2 tr, reloadSeq cmd args s o = (.ok s2, tr) →
       s2.child = s.child + 1 ∧
       s2.registered = [(s2.child, Chan.out), (s2.child, Chan.err)] ∧
       s2.live = [s2.child] ∧ s2.raw = s.raw ∧
       applyRegsTrace s.registered tr = s2.registered ∧
       applyLiveTrace s.live tr = s2.live) := by
  simp only [reloadSeq, Process.deregister, Process.register]
  rw [hregs, hlive]
  rcases hd1 : o.deregOutRes with e1 | u1
  · constructor
    · simp [traceOK, instantOK, applyRegs, applyLive, regChildrenOK]
    · intro s2 tr hc; simp at hc
  · rw [removeReg_out_pair]
    rcases hd2 : o.deregErrRes with e2 | u2
    · constructor
      · simp [traceOK, instantOK, applyRegs, applyLive, regChildrenOK, removeReg_out_pair]
      · intro s2 tr hc; simp at hc
    · rw [removeReg_err_single]
      rcases hk : o.killRes with e3 | u3
      · constructor
        · simp [traceOK, instantOK, applyRegs, applyLive, regChildrenOK,
            removeReg_out_pair, removeReg_err_single]
        · intro s2 tr hc; simp at hc
      · rcases hw : o.waitRes with e4 | w4
        · constructor
          · simp [traceOK, instantOK, applyRegs, applyLive, regChildrenOK,
              removeReg_out_pair, removeReg_err_single]
          · intro s2 tr hc; simp at hc
        · rcases hs : o.spawnRes with e5 | u5
          · constructor
            · simp [traceOK, instantOK, applyRegs, applyLive, regChildrenOK,
                removeReg_out_pair, removeReg_err_single]
            · intro s2 tr hc; simp at hc
          · rcases hr1 : o.regOutRes with e6 | u6
            · constructor
              · simp [traceOK, instantOK, applyRegs, applyLive, regChildrenOK,
                  removeReg_out_pair, removeReg_err_single]
              · intro s2 tr hc; simp at hc
            · rcases hr2 : o.regErrRes with e7 | u7
              · constructor
                · simp [traceOK, instantOK, applyRegs, applyLive, regChildrenOK,
                    removeReg_out_pair, removeReg_err_single]
                · intro s2 tr hc; simp at hc
              · constructor
                · simp [traceOK, instantOK, applyRegs, applyLive, regChildrenOK,
                    removeReg_out_pair, removeReg_err_single]
                · intro s2 tr hc
                  simp only [Prod.mk.injEq, Except.ok.injEq] at hc
                  obtain ⟨hs2, htr⟩ := hc
                  subst hs2
                  subst htr
                  refine ⟨rfl, rfl, ?_, rfl, ?_, ?_⟩
                  · simp
                  · simp [applyRegsTrace, applyRegs, removeReg_out_pair, removeReg_err_single]
                  · simp [applyLiveTrace, applyLive]

/-- The post-poll part of an iteration keeps the single-child property at
every instant: it only appends transfer and `try_wait` actions. -/
theorem afterPoll_traceOK (s : LoopState) (evts : List MioEvent) (o : IterOracle)
    (tr0 : List Action) (regs : List (Nat × Chan)) (live : List Nat)
    (h1 : traceOK regs live tr0 = true)
    (h2 : applyRegsTrace regs tr0 = s.registered)
    (h3 : applyLiveTrace live tr0 = s.live)
    (hio : instantOK s.registered s.live = true) :
    traceOK regs live (stepTrace (afterPoll s evts o tr0)) = true := by
  rw [afterPoll]
  rcases hhe : handleEvents s.child evts o.transferRes with ⟨r1, trE⟩
  have hneut : ∀ a ∈ trE, regNeutral a = true := by
    have h := handleEvents_neutral s.child evts o.transferRes
    rw [hhe] at h
    exact h
  have htrE := traceOK_neutral trE hneut s.registered s.live hio
  have hA : traceOK regs live (tr0 ++ trE) = true := by
    rw [traceOK_append, h1, h2, h3, htrE.1]
    rfl
  have hRegsA : applyRegsTrace regs (tr0 ++ trE) = s.registered := by
    rw [applyRegsTrace, List.foldl_append]
    rw [applyRegsTrace] at h2
    rw [h2]
    exact htrE.2.1
  have hLiveA : applyLiveTrace live (tr0 ++ trE) = s.live := by
    rw [applyLiveTrace, List.foldl_append]
    rw [applyLiveTrace] at h3
    rw [h3]
    exact htrE.2.2
  have hB : traceOK regs live ((tr0 ++ trE) ++ [.triedWait s.child]) = true := by
    rw [traceOK_append, hA, hRegsA, hLiveA]
    have := traceOK_neutral [.triedWait s.child] (by intro a ha; simp at ha; subst ha; rfl)
      s.registered s.live hio
    rw [this.1]
    rfl
  cases r1 with
  | error e => simpa [stepTrace] using hA
  | ok u =>
    rcases htw : o.tryWaitRes with e | mst
    · simpa [stepTrace] using hA
    · cases mst with
      | none => simpa [stepTrace] using hB
      | some st => simpa [stepTrace] using hB

/-- The post-poll part of an iteration never changes the loop state. -/
theorem afterPoll_next (s : LoopState) (evts : List MioEvent) (o : IterOracle)
    (tr : List Action) (s' : LoopState) (tr2 : List Action)
    (h : afterPoll s evts o tr = .next s' tr2) : s' = s := by
  rw [afterPoll] at h
  rcases hhe : handleEvents s.child evts o.transferRes with ⟨r1, trE⟩
  rw [hhe] at h
  cases r1 with
  | error e => simp at h
  | ok u =>
    rcases htw : o.tryWaitRes with e | mst
    · rw [htw] at h; simp at h
    · rw [htw] at h
      cases mst with
      | none => exact (StepRes.next.inj h).1.symm
      | some st => simp at h

theorem input_decoding_rules_witness :
    reloadTerm.isRawFails = none ∧
    read_reload_event false reloadTerm = (RRes.ok true, false) ∧
    read_reload_event false idleTerm = (RRes.ok false, false) :=
  ⟨rfl,
   (input_decoding_rules reloadTerm rfl rfl rfl).2.1
     (.key ⟨KeyCode.char 'r', KeyModifiers.noneMod, KeyEventKind.press⟩)
     rfl rfl (by decide),
   (input_decoding_rules idleTerm rfl rfl rfl).1 rfl⟩

/-- One loop iteration preserves the steady-state shape: exactly the
current child live and registered on both channels, raw mode off. -/
theorem loopStep_next_inv (cmd : String) (args : List String) (s s' : LoopState)
    (o : IterOracle) (tr : List Action)
    (hregs : s.registered = [(s.child, Chan.out), (s.child, Chan.err)])
    (hlive : s.live = [s.child]) (hraw : s.raw = false)
    (h : loopStep cmd args s o = .next s' tr) :
    s'.registered = [(s'.child, Chan.out), (s'.child, Chan.err)] ∧
      s'.live = [s'.child] ∧ s'.raw = false := by
  rw [loopStep] at h
  rcases hrr : read_reload_event s.raw o.term with ⟨res, raw1⟩
  rw [hrr] at h
  cases res with
  | exited n => simp at h
  | err e => simp at h
  | ok b =>
    have hraw1 : raw1 = false := by
      rw [hraw] at hrr
      exact rre_ok_raw_false o.term b raw1 hrr
    subst hraw1
    dsimp only at h
    have hs1 : ({s with raw := false} : LoopState) = s := by
      cases s
      simp_all
    rw [hs1] at h
    cases b with
    | false =>
      simp only [Bool.false_eq_true, if_false] at h
      rcases hps : pollStage o.pollRes with e | evts <;> rw [hps] at h
      · simp at h
      · have := afterPoll_next s evts o ([] ++ [.polled]) s' tr h
        subst this
        exact ⟨hregs, hlive, hraw⟩
    | true =>
      simp only [if_true] at h
      rcases hrs : reloadSeq cmd args s o with ⟨rres, trR⟩
      rw [hrs] at h
      cases rres with
      | error e => simp at h
      | ok s2 =>
        have hspec := (reloadSeq_spec cmd args s o hregs hlive).2 s2 trR hrs
        rcases hps : pollStage o.pollRes with e | evts <;> rw [hps] at h
        · simp at h
        · have := afterPoll_next s2 evts o (trR ++ [.polled]) s' tr h
          subst this
          exact ⟨hspec.2.1, hspec.2.2.1, by rw [hspec.2.2.2.1, hraw]⟩

/-- The whole trace of any loop iteration from a steady state keeps the
single-child property at every instant. -/
theorem loopStep_traceOK (cmd : String) (args : List String) (s : LoopState) (o : IterOracle)
    (hregs : s.registered = [(s.child, Chan.out), (s.child, Chan.err)])
    (hlive : s.live = [s.child]) (hraw : s.raw = false) :
    traceOK s.registered s.live (stepTrace (loopStep cmd args s o)) = true := by
  have hio : instantOK s.registered s.live = true := by
    rw [hregs, hlive]
    simp [instantOK, regChildrenOK]
  rw [loopStep]
  rcases hrr : read_reload_event s.raw o.term with ⟨res, raw1⟩
  cases res with
  | exited n => simp [stepTrace, traceOK]
  | err e => simp [stepTrace, traceOK]
  | ok b =>
    have hraw1 : raw1 = false := by
      rw [hraw] at hrr
      exact rre_ok_raw_false o.term b raw1 hrr
    subst hraw1
    dsimp only
    have hs1 : ({s with raw := false} : LoopState) = s := by
      cases s
      simp_all
    rw [hs1]
    cases b with
    | false =>
      simp only [Bool.false_eq_true, if_false]
      have hpolled : traceOK s.registered s.live ([] ++ [Action.polled]) = true := by
        have := traceOK_neutral [Action.polled] (by intro a ha; simp at ha; subst ha; rfl)
          s.registered s.live hio
        simpa using this.1
      rcases hps : pollStage o.pollRes with e | evts
      · simpa [stepTrace] using hpolled
      · exact afterPoll_traceOK s evts o ([] ++ [Action.polled]) s.registered s.live
          hpolled (by simp [applyRegsTrace, applyRegs]) (by simp [applyLiveTrace, applyLive]) hio
    | true =>
      simp only [if_true]
      rcases hrs : reloadSeq cmd args s o with ⟨rres, trR⟩
      have hspec1 : traceOK s.registered s.live trR = true := by
        have := (reloadSeq_spec cmd args s o hregs hlive).1
        rw [hrs] at this
        exact this
      cases rres with
      | error e => simpa [stepTrace] using hspec1
      | ok s2 =>
        have hspec := (reloadSeq_spec cmd args s o hregs hlive).2 s2 trR hrs
        have hio2 : instantOK s2.registered s2.live = true := by
          rw [hspec.2.1, hspec.2.2.1]
          simp [instantOK, regChildrenOK]
        have h1 : traceOK s.registered s.live (trR ++ [Action.polled]) = true := by
          rw [traceOK_append, hspec1, hspec.2.2.2.2.1, hspec.2.2.2.2.2]
          have := traceOK_neutral [Action.polled] (by intro a ha; simp at ha; subst ha; rfl)
            s2.registered s2.live hio2
          rw [this.1]
          rfl
        have h2 : applyRegsTrace s.registered (trR ++ [Action.polled]) = s2.registered := by
          rw [applyRegsTrace, List.foldl_append]
          rw [applyRegsTrace] at hspec
          rw [hspec.2.2.2.2.1]
          rfl
        have h3 : applyLiveTrace s.live (trR ++ [Action.polled]) = s2.live := by
          rw [applyLiveTrace, List.foldl_append]
          rw [applyLiveTrace] at hspec
          rw [hspec.2.2.2.2.2]
          rfl
        rcases hps : pollStage o.pollRes with e | evts
        · simpa [stepTrace] using h1
        · exact afterPoll_traceOK s2 evts o (trR ++ [Action.polled]) s.registered s.live
            h1 h2 h3 hio2


/-- Claim C5 (loop step, main.rs lines 216-218): whenever the non-blocking
exit check observes that the child exited on its own, the iteration
immediately terminates the supervisor with the child's own exit code, or
with 11 when the operating system reports none (`code().unwrap_or(11)`). -/
theorem natural_exit_propagates_child_code (cmd : String) (args : List String)
    (s : LoopState) (o : IterOracle) (b raw1 : Bool) (s2 : LoopState)
    (trR : List Action) (evts : List MioEvent) (trE : List Action) (mcode : Option Int)
    (h1 : read_reload_event s.raw o.term = (.ok b, raw1))
    (h2 : (if b then reloadSeq cmd args {s with raw := raw1} o
           else (.ok {s with raw := raw1}, [])) = (.ok s2, trR))
    (h3 : pollStage o.pollRes = .ok evts)
    (h4 : handleEvents s2.child evts o.transferRes = (.ok (), trE))
    (h5 : o.tryWaitRes = .ok (some mcode)) :
    loopStep cmd args s o = .exited (mcode.getD 11)
      (trR ++ [.polled] ++ trE ++ [.triedWait s2.child]) := by
  rw [loopStep, h1]
  dsimp only
  rw [h2]
  dsimp only
  rw [h3]
  dsimp only
  rw [afterPoll, h4]
  dsimp only
  rw [h5]

theorem natural_exit_propagates_child_code_witness :
    read_reload_event initState.raw idleTerm = (.ok false, false) ∧
    loopStep "sleep" ["2"] initState
      { idleIter with tryWaitRes := .ok (some (some 7)) } =
      .exited 7 [Action.polled, Action.triedWait 0] := by
  refine ⟨by decide, ?_⟩
  have h := natural_exit_propagates_child_code "sleep" ["2"] initState
    { idleIter with tryWaitRes := .ok (some (some 7)) }
    false false { initState with raw := false } [] [] [] (some 7)
    (by decide) rfl rfl rfl rfl
  exact h

/-- Claim C6: in an iteration whose reload decision is Reload and whose OS
calls succeed, the trace starts with exactly: the "[RELOAD]" announcement,
deregistration of the current child's two channels, kill, wait, the spawn
announcement with the same command specification, the new child's spawn, and
registration of the new child's two channels — and only then the multiplexer
poll of that iteration. -/
theorem reload_sequence_order_before_poll (cmd : String) (args : List String)
    (s : LoopState) (o : IterOracle) (raw1 : Bool) (w : Option Int)
    (h1 : read_reload_event s.raw o.term = (.ok true, raw1))
    (hd1 : o.deregOutRes = .ok ()) (hd2 : o.deregErrRes = .ok ())
    (hk : o.killRes = .ok ()) (hw : o.waitRes = .ok w)
    (hs : o.spawnRes = .ok ()) (hr1 : o.regOutRes = .ok ()) (hr2 : o.regErrRes = .ok ()) :
    ∃ rest, stepTrace (loopStep cmd args s o) =
      Action.reloadAnnounce :: Action.deregOut s.child :: Action.deregErr s.child ::
      Action.killed s.child :: Action.waited s.child :: Action.spawnAnnounce cmd args ::
      Action.spawned (s.child + 1) :: Action.registerOut (s.child + 1) ::
      Action.registerErr (s.child + 1) :: Action.polled :: rest := by
  rw [loopStep, h1]
  dsimp only
  simp only [reloadSeq, Process.deregister, Process.register, hd1, hd2, hk, hw, hs, hr1, hr2,
    if_true]
  rcases hps : pollStage o.pollRes with e | evts
  · exact ⟨[], by simp [stepTrace]⟩
  · dsimp only
    rw [afterPoll.eq_def]
    try dsimp only
    rcases hhe : handleEvents (s.child + 1) evts o.transferRes with ⟨r1, trE⟩
    cases r1 with
    | error e => exact ⟨trE, by simp [stepTrace]⟩
    | ok u =>
      rcases htw : o.tryWaitRes with e | mst
      · exact ⟨trE, by simp [stepTrace]⟩
      · cases mst with
        | none => exact ⟨trE ++ [.triedWait (s.child + 1)], by simp [stepTrace]⟩
        | some st => exact ⟨trE ++ [.triedWait (s.child + 1)], by simp [stepTrace]⟩

theorem reload_sequence_order_before_poll_witness :
    read_reload_event initState.raw reloadTerm = (.ok true, false) ∧
    ∃ rest, stepTrace (loopStep "sleep" ["3"] initState
        { idleIter with term := reloadTerm }) =
      Action.reloadAnnounce :: Action.deregOut initState.child ::
      Action.deregErr initState.child :: Action.killed initState.child ::
      Action.waited initState.child :: Action.spawnAnnounce "sleep" ["3"] ::
      Action.spawned (initState.child + 1) :: Action.registerOut (initState.child + 1) ::
      Action.registerErr (initState.child + 1) :: Action.polled :: rest :=
  ⟨by decide,
   reload_sequence_order_before_poll "sleep" ["3"] initState
     { idleIter with term := reloadTerm } false none
     (by decide) rfl rfl rfl rfl rfl rfl rfl⟩

/-- Claim C8: for an iteration that reaches the multiplexer poll, a poll
failure of kind `Interrupted` is not an error — the iteration behaves exactly
as a successful poll with an empty event set — while a poll failure of any
other kind aborts the loop, propagating that error out of the supervisor. -/
theorem poll_interrupted_empty_other_fatal (cmd : String) (args : List String)
    (s : LoopState) (o : IterOracle) (b raw1 : Bool) (s2 : LoopState) (trR : List Action)
    (h1 : read_reload_event s.raw o.term = (.ok b, raw1))
    (h2 : (if b then reloadSeq cmd args { s with raw := raw1 } o
           else (.ok { s with raw := raw1 }, [])) = (.ok s2, trR)) :
    (o.pollRes = .error .interrupted →
       loopStep cmd args s o = loopStep cmd args s { o with pollRes := .ok [] }) ∧
    (∀ e, e ≠ IOError.interrupted → o.pollRes = .error e →
       loopStep cmd args s o = .failed e (trR ++ [.polled])) := by
  constructor
  · intro hp
    have e1 : loopStep cmd args s o = afterPoll s2 [] o (trR ++ [.polled]) := by
      rw [loopStep, h1]
      dsimp only
      rw [h2]
      dsimp only
      rw [hp]
      simp [pollStage]
    have e2 : loopStep cmd args s { o with pollRes := .ok [] } =
        afterPoll s2 [] o (trR ++ [.polled]) := by
      have hterm : ({ o with pollRes := .ok [] } : IterOracle).term = o.term := rfl
      rw [loopStep, hterm, h1]
      dsimp only
      have hrs : (if b then reloadSeq cmd args { s with raw := raw1 }
              { o with pollRes := .ok [] }
            else (.ok { s with raw := raw1 }, [])) = (.ok s2, trR) := h2
      rw [hrs]
      dsimp only
      simp only [pollStage]
      rfl
    rw [e1, e2]
  · intro e hne hp
    rw [loopStep, h1]
    dsimp only
    rw [h2]
    dsimp only
    rw [hp]
    simp [pollStage, hne]

theorem poll_interrupted_empty_other_fatal_witness :
    ({ idleIter with pollRes := .error .interrupted } : IterOracle).pollRes =
      .error .interrupted ∧
    loopStep "sleep" ["4"] initState { idleIter with pollRes := .error .interrupted } =
      loopStep "sleep" ["4"] initState
        { { idleIter with pollRes := .error .interrupted } with pollRes := .ok [] } :=
  ⟨rfl,
   (poll_interrupted_empty_other_fatal "sleep" ["4"] initState
     { idleIter with pollRes := .error .interrupted } false false
     { initState with raw := false } [] (by decide) rfl).1 rfl⟩

/-- Helper for the exit-code provenance claim: an `exited` outcome of the
post-poll stage always carries the `try_wait` status's code (or 11). -/
theorem afterPoll_exited (s : LoopState) (evts : List MioEvent) (o : IterOracle)
    (tr : List Action) (code : Int) (tr2 : List Action)
    (h : afterPoll s evts o tr = .exited code tr2) :
    ∃ st, o.tryWaitRes = .ok (some st) ∧ code = st.getD 11 := by
  rw [afterPoll] at h
  rcases hhe : handleEvents s.child evts o.transferRes with ⟨r1, trE⟩
  rw [hhe] at h
  cases r1 with
  | error e => simp at h
  | ok u =>
    rcases htw : o.tryWaitRes with e | mst
    · rw [htw] at h; simp at h
    · rw [htw] at h
      cases mst with
      | none => simp at h
      | some st => exact ⟨st, rfl, (StepRes.exited.inj h).1.symm⟩

/-- Claim C9: the exit status of a child killed during a reload is always
discarded — the whole iteration's outcome is unchanged under any value the
reload-path `wait` reports — and whenever the supervisor terminates it does so
either with the fixed quit code 2 or with a code derived from the non-blocking
exit check (`try_wait`), never from the reload-path `wait`. -/
theorem reload_kill_status_discarded (cmd : String) (args : List String)
    (s : LoopState) (o : IterOracle) :
    (∀ w1 w2 : Option Int,
       loopStep cmd args s { o with waitRes := .ok w1 } =
       loopStep cmd args s { o with waitRes := .ok w2 }) ∧
    (∀ code tr, loopStep cmd args s o = .exited code tr →
       code = 2 ∨ ∃ st, o.tryWaitRes = .ok (some st) ∧ code = st.getD 11) := by
  constructor
  · intro w1 w2
    rfl
  · intro code tr h
    rw [loopStep] at h
    rcases hrr : read_reload_event s.raw o.term with ⟨res, raw1⟩
    rw [hrr] at h
    cases res with
    | exited n =>
      dsimp only at h
      obtain ⟨hnc, -⟩ := StepRes.exited.inj h
      left
      rw [← hnc]
      exact rre_exited_two s.raw o.term n raw1 hrr
    | err e => simp at h
    | ok b =>
      dsimp only at h
      rcases hrl : (if b = true then reloadSeq cmd args { s with raw := raw1 } o
                    else (.ok { s with raw := raw1 }, [])) with ⟨rres, trR⟩
      rw [hrl] at h
      cases rres with
      | error e => simp at h
      | ok s2 =>
        rcases hps : pollStage o.pollRes with e | evts <;> rw [hps] at h
        · simp at h
        · exact Or.inr (afterPoll_exited s2 evts o (trR ++ [.polled]) code tr h)

theorem reload_kill_status_discarded_witness :
    (loopStep "sleep" ["5"] initState { idleIter with waitRes := .ok (some 3) } =
       loopStep "sleep" ["5"] initState { idleIter with waitRes := .ok none }) ∧
    ((9 : Int) = 2 ∨ ∃ st,
       ({ idleIter with tryWaitRes := .ok (some (some 9)) } : IterOracle).tryWaitRes =
         .ok (some st) ∧ (9 : Int) = st.getD 11) :=
  ⟨(reload_kill_status_discarded "sleep" ["5"] initState idleIter).1 (some 3) none,
   (reload_kill_status_discarded "sleep" ["5"] initState
     { idleIter with tryWaitRes := .ok (some (some 9)) }).2 9
     [Action.polled, Action.triedWait 0] (by decide)⟩

/-- Claim C1: in every reachable state of the supervision loop exactly one
child is live and it alone is registered (on its two fixed channels), and
along the full action trace of any iteration from such a state the registry
never holds descriptors of two different children at any instant and at most
one child is live at any instant — a new child's descriptors are never
registered while a previous child's are still registered. -/
theorem supervisor_single_child_invariant (cmd : String) (args : List String)
    (s : LoopState) (h : Reachable cmd args s) :
    (s.live = [s.child] ∧
     s.registered = [(s.child, Chan.out), (s.child, Chan.err)] ∧
     instantOK s.registered s.live = true) ∧
    ∀ o : IterOracle,
      traceOK s.registered s.live (stepTrace (loopStep cmd args s o)) = true := by
  have hInv : s.registered = [(s.child, Chan.out), (s.child, Chan.err)] ∧
      s.live = [s.child] ∧ s.raw = false := by
    induction h with
    | init => exact ⟨rfl, rfl, rfl⟩
    | more hprev hstep ih =>
      exact loopStep_next_inv _ _ _ _ _ _ ih.1 ih.2.1 ih.2.2 hstep
  refine ⟨⟨hInv.2.1, hInv.1, ?_⟩,
    fun o => loopStep_traceOK cmd args s o hInv.1 hInv.2.1 hInv.2.2⟩
  rw [hInv.1, hInv.2.1]
  simp [instantOK, regChildrenOK]

theorem supervisor_single_child_invariant_witness :
    Reachable "sleep" ["1"] initState ∧
    (initState.live = [initState.child] ∧
     initState.registered = [(initState.child, Chan.out), (initState.child, Chan.err)] ∧
     instantOK initState.registered initState.live = true) ∧
    traceOK initState.registered initState.live
      (stepTrace (loopStep "sleep" ["1"] initState idleIter)) = true :=
  ⟨.init, (supervisor_single_child_invariant "sleep" ["1"] initState .init).1,
   (supervisor_single_child_invariant "sleep" ["1"] initState .init).2 idleIter⟩

end Hot
